import Mathlib

set_option maxHeartbeats 1000000

/- Shallow embedding of packages/web/src/hooks/useChat.ts: the zustand
store created by useChatState and the operations it returns.  JavaScript
strings are lists of characters; the three per-view objects of the store
(chats, modelIds, loading) are insertion-ordered association lists; the
external collaborators (prompter, model catalog, uuid supply, persistence
and inference responses) are explicit parameters. -/

namespace UseChat

/-- Characters of a JavaScript string. -/
abbrev Str := List Char

/-- Message roles (the Role union type). -/
inductive Role where
  | system
  | user
  | assistant
deriving DecidableEq

/-- A durable chat record (Chat): its chatId and title. -/
structure Chat where
  chatId : Str
  title : Str
deriving DecidableEq

/-- A message as held in the store (ShownMessage).  The optional fields
are undefined (none) while the message is ephemeral; the server-side
fields not consulted by this hook are omitted. -/
structure ShownMessage where
  role : Role
  content : Str
  messageId : Option Str := none
  usecase : Option Str := none
  llmType : Option Str := none
deriving DecidableEq

/-- One entry of the chats object: the optional durable chat and the
message list. -/
structure ChatEntry where
  chat : Option Chat
  messages : List ShownMessage
deriving DecidableEq

/-- The store state: chats, modelIds and loading. -/
structure Store where
  chats : List (Str × ChatEntry)
  modelIds : List (Str × Str)
  loading : List (Str × Bool)
deriving DecidableEq

/-- Property read obj[key] on a JavaScript object (first binding wins;
keys are unique in every store the code builds). -/
def lookup {α : Type} : List (Str × α) → Str → Option α
  | [], _ => none
  | (k, v) :: rest, key => if k = key then some v else lookup rest key

/-- Property write obj[key] = v: update the binding in place, or append
a new one. -/
def setAssoc {α : Type} : List (Str × α) → Str → α → List (Str × α)
  | [], key, v => [(key, v)]
  | (k, w) :: rest, key, v =>
    if k = key then (k, v) :: rest else (k, w) :: setAssoc rest key v

/-- In-place mutation of the entry at a key (an immer draft write).  The
source would throw a TypeError on an absent key; every modelled call site
reaches it only for keys that are present. -/
def mapAssoc {α : Type} : List (Str × α) → Str → (α → α) → List (Str × α)
  | [], _, _ => []
  | (k, v) :: rest, key, f =>
    if k = key then (k, f v) :: rest else (k, v) :: mapAssoc rest key f

/-- The replace call of the streaming loop: one left-to-right pass that
deletes every non-overlapping occurrence of either marker token, exactly
as the global regex alternation does. -/
def stripOutput : Str → Str
  | '<' :: 'o' :: 'u' :: 't' :: 'p' :: 'u' :: 't' :: '>' :: rest => stripOutput rest
  | '<' :: '/' :: 'o' :: 'u' :: 't' :: 'p' :: 'u' :: 't' :: '>' :: rest => stripOutput rest
  | c :: rest => c :: stripOutput rest
  | [] => []

/-- Longest leading run of non-slash characters. -/
def takeSeg : Str → Str
  | [] => []
  | c :: rest => if c = '/' then [] else c :: takeSeg rest

/-- First match of the one-or-more-non-slash regex used on the view key:
the first maximal run of non-slash characters, if any. -/
def firstSeg : Str → Option Str
  | [] => none
  | c :: rest => if c = '/' then firstSeg rest else some (c :: takeSeg rest)

/-- The usecase tag computed in addMessageIdsToUnrecordedMessages: a
slash plus the first regex match, or the whole key when there is none. -/
def usecaseOf (key : Str) : Str :=
  match firstSeg key with
  | some seg => '/' :: seg
  | none => key

/-- Spec reading of the usecase tag: the first path-like segment of the
view key (its slash-prefixed first component), or the whole key when the
key contains no segment. -/
def specUsecaseTag (key : Str) : Str :=
  let rest := key.dropWhile (fun c => c == '/')
  if rest = [] then key else '/' :: rest.takeWhile (fun c => !(c == '/'))

/-- A catalog entry of findModelByModelId. -/
structure Model where
  modelId : Str
deriving DecidableEq

/-- The deterministic external collaborators: the prompter, read as
systemContext applied to the selected model id and the view key, and the
model catalog. -/
structure Env where
  systemContext : Str → Str → Str
  findModel : Str → Option Model

/-- getModelId: the selected model id or the empty string. -/
def getModelId (s : Store) (id : Str) : Str :=
  (lookup s.modelIds id).getD []

/-- setModelId. -/
def setModelId (s : Store) (id newModelId : Str) : Store :=
  { s with modelIds := setAssoc s.modelIds id newModelId }

/-- setLoading. -/
def setLoading (s : Store) (id : Str) (b : Bool) : Store :=
  { s with loading := setAssoc s.loading id b }

/-- initChat: overwrite the whole entry for the view. -/
def initChat (s : Store) (id : Str) (messages : List ShownMessage)
    (chat : Option Chat) : Store :=
  { s with chats := setAssoc s.chats id ⟨chat, messages⟩ }

/-- The blank system-only entry written by initChatWithSystemContext. -/
def blankEntry (env : Env) (s : Store) (id : Str) : ChatEntry :=
  ⟨none, [{ role := Role.system, content := env.systemContext (getModelId s id) id }]⟩

/-- initChatWithSystemContext. -/
def initChatWithSystemContext (env : Env) (s : Store) (id : Str) : Store :=
  initChat s id (blankEntry env s id).messages none

/-- init: create the blank state only when the view has no entry yet. -/
def init (env : Env) (s : Store) (id : Str) : Store :=
  match lookup s.chats id with
  | none => initChatWithSystemContext env s id
  | some _ => s

/-- clear: unconditional reset to the blank system-only state. -/
def clear (env : Env) (s : Store) (id : Str) : Store :=
  initChatWithSystemContext env s id

/-- restore: first reset every view whose durable chat carries the same
chatId (the duplicate-view collapse), then write the hydrated entry.
The loop reads the entry snapshot taken before its own mutations, and
its resets never touch modelIds, so the blank contents use the modelIds
of the incoming store. -/
def restore (env : Env) (s : Store) (id : Str) (messages : List ShownMessage)
    (chat : Chat) : Store :=
  let collapsed : Store :=
    { s with chats := s.chats.map (fun kv =>
        if kv.2.chat.map Chat.chatId = some chat.chatId
        then (kv.1, blankEntry env s kv.1) else kv) }
  initChat collapsed id messages (some chat)

/-- Rewrite of the content of the first system-role message, if any (the
findIndex loop of updateSystemContext). -/
def setSystemInList (ctx : Str) : List ShownMessage → List ShownMessage
  | [] => []
  | m :: rest =>
    if m.role = Role.system then { m with content := ctx } :: rest
    else m :: setSystemInList ctx rest

/-- updateSystemContext. -/
def updateSystemContext (s : Store) (id : Str) (ctx : Str) : Store :=
  { s with chats := mapAssoc s.chats id (fun e =>
      { e with messages := setSystemInList ctx e.messages }) }

/-- getCurrentSystemContext: the empty string when the view has no entry
at all; otherwise the content of the first system-role message - none
models the TypeError thrown when the filter result is empty and element
zero is undefined. -/
def getCurrentSystemContext (s : Store) (id : Str) : Option Str :=
  match lookup s.chats id with
  | some e =>
    match e.messages.filter (fun m => m.role == Role.system) with
    | [] => none
    | m :: _ => some m.content
  | none => some []

/-- pushMessage. -/
def pushMessage (s : Store) (id : Str) (role : Role) (content : Str) : Store :=
  { s with chats := mapAssoc s.chats id (fun e =>
      { e with messages := e.messages ++ [{ role := role, content := content }] }) }

/-- popMessage: return the trailing message (undefined on an empty list)
and drop it. -/
def popMessage (s : Store) (id : Str) : Option ShownMessage × Store :=
  match lookup s.chats id with
  | none => (none, s)
  | some e =>
    (e.messages.getLast?,
     { s with chats := mapAssoc s.chats id (fun e0 =>
         { e0 with messages := e0.messages.dropLast }) })

/-- One iteration of the streaming loop body: pop the trailing assistant
message and push a fresh one whose content is the old content plus the
chunk, re-stripped; the popped message is never empty on the modelled
path (post pushed the placeholder just before). -/
def streamStep (modelId : Str) (ms : List ShownMessage) (frag : Str) : List ShownMessage :=
  ms.dropLast ++ [{ role := Role.assistant,
                    content := stripOutput ((ms.getLast?.map ShownMessage.content).getD [] ++ frag),
                    llmType := some modelId }]

/-- One set() call of the streaming loop. -/
def streamMutation (s : Store) (id modelId : Str) (frag : Str) : Store :=
  { s with chats := mapAssoc s.chats id (fun e =>
      { e with messages := streamStep modelId e.messages frag }) }

/-- The streaming loop as its sequence of store states: one state per
arriving chunk, in arrival order. -/
def streamTrace (s : Store) (id modelId : Str) : List Str → List Store
  | [] => []
  | f :: fs =>
    let s1 := streamMutation s id modelId f
    s1 :: streamTrace s1 id modelId fs

/-- The store left by the streaming loop. -/
def streamFold (s : Store) (id modelId : Str) (frags : List Str) : Store :=
  frags.foldl (fun acc f => streamMutation acc id modelId f) s

/-- The optional postProcessOutput pass: the same pop-and-push shape
applied once to the final assistant content. -/
def postProcessStep (modelId : Str) (f : Str → Str) (ms : List ShownMessage) : List ShownMessage :=
  ms.dropLast ++ [{ role := Role.assistant,
                    content := f ((ms.getLast?.map ShownMessage.content).getD []),
                    llmType := some modelId }]

/-- A message reduced to role and content (UnrecordedMessage), the shape
sent to the inference collaborator. -/
structure UnrecordedMessage where
  role : Role
  content : Str
deriving DecidableEq

/-- omitUnusedMessageProperties. -/
def omitUnusedMessageProperties (ms : List ShownMessage) : List UnrecordedMessage :=
  ms.map (fun m => { role := m.role, content := m.content })

/-- One canonical record merged into a message list: the first message
whose messageId compares equal (undefined equalling undefined, as under
strict equality) is overwritten in place; without a match the list is
unchanged. -/
def replaceOne (m : ShownMessage) : List ShownMessage → List ShownMessage
  | [] => []
  | x :: rest =>
    if x.messageId = m.messageId then m :: rest else x :: replaceOne m rest

/-- The loop of replaceMessages over a message list. -/
def replaceMessagesList (ms : List ShownMessage) (canon : List ShownMessage) : List ShownMessage :=
  canon.foldl (fun acc m => replaceOne m acc) ms

/-- replaceMessages. -/
def replaceMessages (s : Store) (id : Str) (canon : List ShownMessage) : Store :=
  { s with chats := mapAssoc s.chats id (fun e =>
      { e with messages := replaceMessagesList e.messages canon }) }

/-- The loop of addMessageIdsToUnrecordedMessages: walk the messages in
order, give each message that has no messageId the next fresh id (gen n
is the n-th uuid() value) and the usecase tag of the view key, and
collect clones of exactly those messages. -/
def assignIds (gen : Nat → Str) (key : Str) :
    Nat → List ShownMessage → List ShownMessage × List ShownMessage × Nat
  | n, [] => ([], [], n)
  | n, m :: rest =>
    match m.messageId with
    | some _ =>
      let r := assignIds gen key n rest
      (m :: r.1, r.2.1, r.2.2)
    | none =>
      let m1 : ShownMessage :=
        { m with messageId := some (gen n), usecase := some (usecaseOf key) }
      let r := assignIds gen key (n + 1) rest
      (m1 :: r.1, m1 :: r.2.1, r.2.2)

/-- addMessageIdsToUnrecordedMessages: the cloned batch to be recorded,
the new store, and the next fresh-id index. -/
def addMessageIdsToUnrecordedMessages (gen : Nat → Str) (cnt : Nat) (s : Store)
    (id : Str) : List ShownMessage × Store × Nat :=
  match lookup s.chats id with
  | none => ([], s, cnt)
  | some e =>
    let r := assignIds gen id cnt e.messages
    (r.2.1,
     { s with chats := mapAssoc s.chats id (fun e0 => { e0 with messages := r.1 }) },
     r.2.2)

/-- The reconciliation tail of post: assign ids, submit the batch
(recordFn is the createMessages response), merge the canonical records
back by id. -/
def reconcile (gen : Nat → Str) (cnt : Nat)
    (recordFn : List ShownMessage → List ShownMessage) (s : Store) (id : Str) : Store :=
  let r := addMessageIdsToUnrecordedMessages gen cnt s id
  replaceMessages r.2.1 id (recordFn r.1)

/-- createChatIfNotExist: keep an existing ChatRef (no request made),
else attach the chat created by the server; the Bool records whether
createChat was called. -/
def createChatIfNotExist (s : Store) (id : Str) (chat : Option Chat)
    (newChat : Chat) : Str × Store × Bool :=
  match chat with
  | some c => (c.chatId, s, false)
  | none =>
    (newChat.chatId,
     { s with chats := mapAssoc s.chats id (fun e => { e with chat := some newChat }) },
     true)

/-- createChatIfNotExist as post invokes it: the chat argument is read
from the current entry of the view. -/
def ensureDurable (s : Store) (id : Str) (newChat : Chat) : Str × Store × Bool :=
  createChatIfNotExist s id ((lookup s.chats id).bind ChatEntry.chat) newChat

/-- setTitle: write the title into the entry's chat when one is attached. -/
def setTitle (s : Store) (id : Str) (title : Str) : Store :=
  { s with chats := mapAssoc s.chats id (fun e =>
      match e.chat with
      | some c => { e with chat := some { c with title := title } }
      | none => e) }

/-- The per-call inputs of post that come from the caller or from the
external collaborators: the submitted content, the stream chunks, the
createChat and createMessages responses, the predicted title, and the
uuid supply. -/
structure PostArgs where
  content : Str
  ignoreHistory : Bool
  preProcessInput : Option (List ShownMessage → List ShownMessage)
  postProcessOutput : Option (Str → Str)
  fragments : List Str
  newChat : Chat
  recordFn : List ShownMessage → List ShownMessage
  predictedTitle : Str
  gen : Nat → Str
  cnt : Nat

/-- What a completed post call left behind: the store, the reduced
message list handed to predictStream (none when post returned before
calling it), and whether createChat was called. -/
structure PostResult where
  store : Store
  sent : Option (List UnrecordedMessage)
  createdChat : Bool
deriving DecidableEq

/-- post: the full pipeline.  none models the TypeError paths (an absent
entry being mutated); the early returns on a missing model selection or
an unknown model yield the incoming store unchanged with nothing sent.
The title-prediction task is detached in the source; it touches only the
chat title, and is applied here at its trigger point. -/
def post (env : Env) (s : Store) (id : Str) (a : PostArgs) : Option PostResult :=
  let modelId := getModelId s id
  if modelId = [] then some ⟨s, none, false⟩ else
  match env.findModel modelId with
  | none => some ⟨s, none, false⟩
  | some model =>
    match lookup s.chats id with
    | none => none
    | some _ =>
      let s1 := setLoading s id true
      let s2 := pushMessage s1 id Role.user a.content
      let s3 := pushMessage s2 id Role.assistant []
      match lookup s3.chats id with
      | none => none
      | some e3 =>
        let chatMessages := e3.messages
        let inputMessages0 :=
          if a.ignoreHistory then
            chatMessages.take 1 ++ (chatMessages.drop (chatMessages.length - 2)).take 1
          else chatMessages.dropLast
        let inputMessages :=
          match a.preProcessInput with
          | some f => f inputMessages0
          | none => inputMessages0
        let sent := omitUnusedMessageProperties inputMessages
        let s4 := streamFold s3 id model.modelId a.fragments
        let s5 :=
          match a.postProcessOutput with
          | some f =>
            { s4 with chats := mapAssoc s4.chats id (fun e =>
                { e with messages := postProcessStep model.modelId f e.messages }) }
          | none => s4
        let s6 := setLoading s5 id false
        let r7 := ensureDurable s6 id a.newChat
        let s7 := r7.2.1
        let s8 :=
          if ((lookup s7.chats id).bind ChatEntry.chat).map Chat.title = some [] then
            setTitle s7 id a.predictedTitle
          else s7
        let s10 := reconcile a.gen a.cnt a.recordFn s8 id
        some ⟨s10, some sent, r7.2.2⟩

/-- sendFeedback: only when a durable chat is attached does it call
updateFeedback (serverMsg models that response) and merge the returned
record; the Bool records whether the call was made.  none models the
TypeError on a view with no entry at all. -/
def sendFeedback (s : Store) (id : Str) (serverMsg : ShownMessage) :
    Option (Store × Bool) :=
  match lookup s.chats id with
  | none => none
  | some e =>
    match e.chat with
    | some _ => some (replaceMessages s id [serverMsg], true)
    | none => some (s, false)

/-- The operations named by the id-permanence invariant: streaming,
reconciliation, canonical-record merge, feedback update, push and pop. -/
inductive EngineOp where
  | push (role : Role) (content : Str)
  | pop
  | streamFrag (modelId : Str) (frag : Str)
  | reconcileOp (gen : Nat → Str) (cnt : Nat)
      (recordFn : List ShownMessage → List ShownMessage)
  | mergeOp (canon : List ShownMessage)
  | feedbackOp (serverMsg : ShownMessage)

/-- Apply one operation to the store. -/
def applyOp (s : Store) (id : Str) : EngineOp → Store
  | .push role content => pushMessage s id role content
  | .pop => (popMessage s id).2
  | .streamFrag modelId frag => streamMutation s id modelId frag
  | .reconcileOp gen cnt recordFn => reconcile gen cnt recordFn s id
  | .mergeOp canon => replaceMessages s id canon
  | .feedbackOp m => ((sendFeedback s id m).map Prod.fst).getD s

/-- Streaming only ever replaces the trailing placeholder, which post
pushed without an id; no other operation needs a side condition. -/
def opPrecond (s : Store) (id : Str) : EngineOp → Prop
  | .streamFrag _ _ =>
    ∀ e, lookup s.chats id = some e →
      ∀ m, e.messages.getLast? = some m → m.messageId = none
  | _ => True

/-- The message list a view holds (empty when the view has no entry). -/
def messagesOf (s : Store) (id : Str) : List ShownMessage :=
  ((lookup s.chats id).map ChatEntry.messages).getD []

/-- The content of the trailing message of a view, if any. -/
def lastContentOf (s : Store) (id : Str) : Option Str :=
  ((lookup s.chats id).bind (fun e => e.messages.getLast?)).map ShownMessage.content

/-- A sample prompter and catalog for concrete instantiations. -/
def sampleEnv : Env :=
  ⟨fun _ _ => ("S").data,
   fun mid => if mid = ("m").data then some ⟨("m").data⟩ else none⟩

/-- Sample per-call inputs for concrete instantiations. -/
def sampleArgs : PostArgs :=
  { content := ("hi").data
    ignoreHistory := false
    preProcessInput := none
    postProcessOutput := none
    fragments := []
    newChat := ⟨("c1").data, []⟩
    recordFn := fun l => l
    predictedTitle := ("T").data
    gen := fun _ => ("u").data
    cnt := 0 }

/-- A store whose only view has a blank state and no model selected. -/
def store7 : Store :=
  ⟨[((("v").data), ⟨none, [{ role := Role.system, content := ("S").data }]⟩)], [], []⟩

/-- A store whose only view has a state with no system message. -/
def store6 : Store :=
  ⟨[((("v").data), ⟨none, [{ role := Role.user, content := ("hi").data }]⟩)], [], []⟩

/-- A store whose only view has a state with a system message and no
durable chat. -/
def store8 : Store :=
  ⟨[((("v").data), ⟨none, [{ role := Role.system, content := ("S").data }]⟩)],
   [((("v").data), ("m").data)], []⟩

/-- A store in which view a is bound to chat c1 and view w to chat c9. -/
def store2 : Store :=
  ⟨[((("a").data), ⟨some ⟨("c1").data, ("T").data⟩,
        [{ role := Role.system, content := ("S").data }]⟩),
    ((("w").data), ⟨some ⟨("c9").data, ("U").data⟩,
        [{ role := Role.system, content := ("S").data }]⟩)],
   [], []⟩

/-- A store whose only view holds one recorded message bound to a
durable chat. -/
def storeR : Store :=
  ⟨[((("v").data),
     ⟨some ⟨("c1").data, ("T").data⟩,
      [{ role := Role.system, content := ("S").data,
         messageId := some (("id1").data), usecase := some (("/v").data) }]⟩)],
   [], []⟩

/-- A store whose only view holds a system message, a user message and a
trailing empty assistant placeholder, with a model selected. -/
def store9 : Store :=
  ⟨[((("v").data),
     ⟨none, [{ role := Role.system, content := ("S").data },
             { role := Role.user, content := ("hi").data },
             { role := Role.assistant, content := [] }]⟩)],
   [((("v").data), ("m").data)], []⟩

theorem lookup_setAssoc {α : Type} (l : List (Str × α)) (key k : Str) (v : α) :
    lookup (setAssoc l key v) k = if key = k then some v else lookup l k := by
  induction l with
  | nil => simp [setAssoc, lookup]
  | cons p rest ih =>
    obtain ⟨k0, v0⟩ := p
    simp only [setAssoc]
    by_cases h0 : k0 = key
    · subst h0
      simp only [if_pos rfl, lookup]
      by_cases h : k0 = k <;> simp [h]
    · simp only [if_neg h0, lookup]
      by_cases h : k0 = k
      · have hk : ¬ key = k := fun hkk => h0 (h.trans hkk.symm)
        simp [h, hk]
      · simp [h, ih]

theorem lookup_mapAssoc {α : Type} (l : List (Str × α)) (key k : Str) (f : α → α) :
    lookup (mapAssoc l key f) k
      = if key = k then (lookup l k).map f else lookup l k := by
  induction l with
  | nil =>
    simp only [mapAssoc, lookup]
    by_cases h : key = k <;> simp [h]
  | cons p rest ih =>
    obtain ⟨k0, v0⟩ := p
    simp only [mapAssoc]
    by_cases h0 : k0 = key
    · subst h0
      simp only [if_pos rfl, lookup]
      by_cases h : k0 = k <;> simp [h]
    · simp only [if_neg h0, lookup]
      by_cases h : k0 = k
      · have hk : ¬ key = k := fun hkk => h0 (h.trans hkk.symm)
        simp [h, hk]
      · simp [h, ih]

theorem lookup_mem {α : Type} (l : List (Str × α)) (k : Str) (v : α)
    (h : lookup l k = some v) : (k, v) ∈ l := by
  induction l with
  | nil => simp [lookup] at h
  | cons p rest ih =>
    obtain ⟨k0, v0⟩ := p
    simp only [lookup] at h
    by_cases h0 : k0 = k
    · rw [if_pos h0] at h
      cases h
      subst h0
      exact List.mem_cons_self _ _
    · rw [if_neg h0] at h
      exact List.mem_cons_of_mem _ (ih h)

theorem forall2_comp {α : Type} {P Q R : α → α → Prop}
    (hcomp : ∀ a b c, P a b → Q b c → R a c) :
    ∀ {l1 l2 l3 : List α}, List.Forall₂ P l1 l2 → List.Forall₂ Q l2 l3 →
      List.Forall₂ R l1 l3
  | _, _, _, List.Forall₂.nil, List.Forall₂.nil => List.Forall₂.nil
  | _, _, _, List.Forall₂.cons hab h1, List.Forall₂.cons hbc h2 =>
    List.Forall₂.cons (hcomp _ _ _ hab hbc) (forall2_comp hcomp h1 h2)

/-- Merging one canonical record keeps every messageId in place, and any
position whose value changed now holds exactly that record. -/
theorem replaceOne_pointwise (m : ShownMessage) (ms : List ShownMessage) :
    List.Forall₂ (fun a b => b.messageId = a.messageId ∧ (b ≠ a → b = m))
      ms (replaceOne m ms) := by
  induction ms with
  | nil => exact List.Forall₂.nil
  | cons x rest ih =>
    simp only [replaceOne]
    by_cases h : x.messageId = m.messageId
    · rw [if_pos h]
      refine List.Forall₂.cons ⟨h.symm, fun _ => rfl⟩ ?_
      exact List.forall₂_same.2 (fun y _ => ⟨rfl, fun hne => absurd rfl hne⟩)
    · rw [if_neg h]
      exact List.Forall₂.cons ⟨rfl, fun hne => absurd rfl hne⟩ ih

/-- Merging a batch of canonical records keeps every messageId in place,
and any position whose value changed now holds one of the records. -/
theorem replaceMessagesList_pointwise (canon : List ShownMessage) :
    ∀ ms : List ShownMessage,
      List.Forall₂ (fun a b => b.messageId = a.messageId ∧ (b ≠ a → b ∈ canon))
        ms (replaceMessagesList ms canon) := by
  induction canon with
  | nil =>
    intro ms
    exact List.forall₂_same.2 (fun y _ => ⟨rfl, fun hne => absurd rfl hne⟩)
  | cons m rest ih =>
    intro ms
    have step := replaceOne_pointwise m ms
    have tail := ih (replaceOne m ms)
    have comp := forall2_comp
      (P := fun a b => b.messageId = a.messageId ∧ (b ≠ a → b = m))
      (Q := fun a b => b.messageId = a.messageId ∧ (b ≠ a → b ∈ rest))
      (R := fun a b => b.messageId = a.messageId ∧ (b ≠ a → b ∈ m :: rest))
      (fun a b c hab hbc => by
        refine ⟨hbc.1.trans hab.1, fun hne => ?_⟩
        by_cases hcb : c = b
        · subst hcb
          rcases hab with ⟨_, hab2⟩
          rw [hab2 hne]
          exact List.mem_cons_self _ _
        · exact List.mem_cons_of_mem _ (hbc.2 hcb))
      step tail
    simpa [replaceMessagesList] using comp

/-- The id-assignment pass leaves already-identified messages entirely
unchanged, and rewrites each unidentified message to itself plus a fresh
id and the usecase tag of the view key. -/
theorem assignIds_pointwise (gen : Nat → Str) (key : Str) :
    ∀ (ms : List ShownMessage) (n : Nat),
      List.Forall₂ (fun a b =>
          (a.messageId ≠ none → b = a) ∧
          (a.messageId = none → ∃ k,
            b = { a with messageId := some (gen k), usecase := some (usecaseOf key) }))
        ms (assignIds gen key n ms).1 := by
  intro ms
  induction ms with
  | nil => intro n; exact List.Forall₂.nil
  | cons m rest ih =>
    intro n
    cases hm : m.messageId with
    | some x =>
      simp only [assignIds, hm]
      exact List.Forall₂.cons
        ⟨fun _ => rfl, fun hnone => by rw [hm] at hnone; cases hnone⟩ (ih n)
    | none =>
      simp only [assignIds, hm]
      exact List.Forall₂.cons
        ⟨fun hne => absurd hm hne, fun _ => ⟨n, rfl⟩⟩ (ih (n + 1))

/-- When every message already has an id, the assignment pass is the
identity and records nothing. -/
theorem assignIds_allSome (gen : Nat → Str) (key : Str) :
    ∀ (ms : List ShownMessage) (n : Nat),
      (∀ m ∈ ms, m.messageId ≠ none) →
      assignIds gen key n ms = (ms, [], n) := by
  intro ms
  induction ms with
  | nil => intro n _; rfl
  | cons m rest ih =>
    intro n hall
    cases hm : m.messageId with
    | some x =>
      have hrest := ih n (fun m1 hm1 => hall m1 (List.mem_cons_of_mem _ hm1))
      simp [assignIds, hm, hrest]
    | none =>
      exact absurd hm (hall m (List.mem_cons_self _ _))

/-- Every message in the collected batch carries a fresh id and the
usecase tag of the view key. -/
theorem assignIds_batch (gen : Nat → Str) (key : Str) :
    ∀ (ms : List ShownMessage) (n : Nat),
      ∀ r ∈ (assignIds gen key n ms).2.1, ∃ k,
        r.messageId = some (gen k) ∧ r.usecase = some (usecaseOf key) := by
  intro ms
  induction ms with
  | nil => intro n r hr; simp [assignIds] at hr
  | cons m rest ih =>
    intro n r hr
    cases hm : m.messageId with
    | some x =>
      simp only [assignIds, hm] at hr
      exact ih n r hr
    | none =>
      simp only [assignIds, hm, List.mem_cons] at hr
      rcases hr with hr | hr
      · subst hr; exact ⟨n, rfl, rfl⟩
      · exact ih (n + 1) r hr

/-- The usecase tag of a non-empty view key is non-empty. -/
theorem usecaseOf_ne_nil (key : Str) (h : key ≠ []) : usecaseOf key ≠ [] := by
  unfold usecaseOf
  cases hs : firstSeg key with
  | some seg => simp
  | none => simpa using h

theorem takeSeg_eq_takeWhile :
    ∀ l : Str, takeSeg l = l.takeWhile (fun c => !(c == '/')) := by
  intro l
  induction l with
  | nil => rfl
  | cons c rest ih =>
    by_cases h : c = '/' <;> simp [takeSeg, List.takeWhile_cons, h, ih]

theorem firstSeg_none_iff :
    ∀ key : Str, firstSeg key = none ↔ key.dropWhile (fun c => c == '/') = [] := by
  intro key
  induction key with
  | nil => simp [firstSeg]
  | cons c rest ih =>
    by_cases h : c = '/' <;> simp [firstSeg, List.dropWhile_cons, h, ih]

/-- C4: the usecase tag assigned at reconciliation is the first
path-like segment of the view key (its slash-prefixed first component),
or the whole view key when the key contains no segment; in particular
the tag of the key /chat/sub is /chat, and an all-slash key is used
whole. -/
theorem usecase_tag_matches_spec :
    (∀ key : Str, usecaseOf key = specUsecaseTag key)
    ∧ usecaseOf (("/chat/sub").data) = ("/chat").data
    ∧ usecaseOf (("///").data) = ("///").data := by
  refine ⟨?_, by decide, by decide⟩
  intro key
  induction key with
  | nil => rfl
  | cons c rest ih =>
    by_cases h : c = '/'
    · subst h
      cases hf : firstSeg rest with
      | none =>
        have hdw : rest.dropWhile (fun c => c == '/') = [] :=
          (firstSeg_none_iff rest).1 hf
        simp [usecaseOf, firstSeg, specUsecaseTag, List.dropWhile_cons, hf, hdw]
      | some seg =>
        have hdw : ¬ rest.dropWhile (fun c => c == '/') = [] := by
          intro he
          rw [← firstSeg_none_iff] at he
          rw [hf] at he
          cases he
        have hspec : specUsecaseTag rest
            = '/' :: (rest.dropWhile (fun c => c == '/')).takeWhile (fun c => !(c == '/')) := by
          simp [specUsecaseTag, hdw]
        have hcode : usecaseOf rest = '/' :: seg := by
          simp [usecaseOf, hf]
        have hseg : seg
            = (rest.dropWhile (fun c => c == '/')).takeWhile (fun c => !(c == '/')) := by
          have := ih
          rw [hcode, hspec] at this
          exact List.cons_injective this |>.symm ▸ rfl
        simp [usecaseOf, firstSeg, specUsecaseTag, List.dropWhile_cons, hf, hdw, hseg]
    · simp [usecaseOf, firstSeg, specUsecaseTag, List.dropWhile_cons, h,
        takeSeg_eq_takeWhile, List.takeWhile_cons]

/-- C6 counterexample: a view whose conversation state exists but holds
no system-role message does not yield the empty string - the read hits
the TypeError path (modelled as none), refuting the claim as stated. -/
theorem getCurrentSystemContext_no_system_cex :
    getCurrentSystemContext store6 (("v").data) = none
    ∧ getCurrentSystemContext store6 (("v").data) ≠ some [] := by
  exact ⟨by decide, by decide⟩

/-- C6 amended: getCurrentSystemContext returns the empty string exactly
when the view has no conversation state at all; when a state exists but
contains no system message the access throws (none); when system
messages exist it returns the content of the first one - in particular
of the unique one when it is unique. -/
theorem getCurrentSystemContext_spec (s : Store) (id : Str) :
    (lookup s.chats id = none → getCurrentSystemContext s id = some [])
    ∧ (∀ e, lookup s.chats id = some e →
        e.messages.filter (fun m => m.role == Role.system) = [] →
        getCurrentSystemContext s id = none)
    ∧ (∀ e m rest, lookup s.chats id = some e →
        e.messages.filter (fun m => m.role == Role.system) = m :: rest →
        getCurrentSystemContext s id = some m.content) := by
  refine ⟨?_, ?_, ?_⟩
  · intro h
    simp [getCurrentSystemContext, h]
  · intro e he hf
    simp [getCurrentSystemContext, he, hf]
  · intro e m rest he hf
    simp [getCurrentSystemContext, he, hf]

/-- C6 witness: each branch of the amended statement realised on a
concrete store. -/
theorem getCurrentSystemContext_spec_witness :
    (lookup (Store.mk [] [] []).chats (("v").data) = none
      ∧ getCurrentSystemContext (Store.mk [] [] []) (("v").data) = some [])
    ∧ (lookup store6.chats (("v").data)
        = some ⟨none, [{ role := Role.user, content := ("hi").data }]⟩
      ∧ getCurrentSystemContext store6 (("v").data) = none)
    ∧ (lookup store7.chats (("v").data)
        = some ⟨none, [{ role := Role.system, content := ("S").data }]⟩
      ∧ getCurrentSystemContext store7 (("v").data) = some (("S").data)) := by
  refine ⟨⟨by decide, ?_⟩, ⟨by decide, ?_⟩, ⟨by decide, ?_⟩⟩
  · exact (getCurrentSystemContext_spec (Store.mk [] [] []) (("v").data)).1 (by decide)
  · exact (getCurrentSystemContext_spec store6 (("v").data)).2.1
      ⟨none, [{ role := Role.user, content := ("hi").data }]⟩ (by decide) (by decide)
  · exact (getCurrentSystemContext_spec store7 (("v").data)).2.2
      ⟨none, [{ role := Role.system, content := ("S").data }]⟩
      { role := Role.system, content := ("S").data } [] (by decide) (by decide)

/-- C7: when the view has no model selected, or the selected model id is
not in the catalog, post returns early: the whole store - hence the
loading flag and the message list of the view - is unchanged, nothing is
sent to inference, and the call completes normally, surfacing no error
value to the caller. -/
theorem post_missing_model_silent (env : Env) (s : Store) (id : Str) (a : PostArgs)
    (h : getModelId s id = [] ∨ env.findModel (getModelId s id) = none) :
    post env s id a = some ⟨s, none, false⟩ := by
  by_cases h0 : getModelId s id = []
  · simp [post, h0]
  · rcases h with h | h
    · exact absurd h h0
    · simp [post, h0, h]

/-- C7 witness: a concrete view with no model selected. -/
theorem post_missing_model_silent_witness :
    (getModelId store7 (("v").data) = []
      ∨ sampleEnv.findModel (getModelId store7 (("v").data)) = none)
    ∧ post sampleEnv store7 (("v").data) sampleArgs = some ⟨store7, none, false⟩ :=
  ⟨Or.inl (by decide),
   post_missing_model_silent sampleEnv store7 (("v").data) sampleArgs (Or.inl (by decide))⟩

/-- C10: sendFeedback on a view whose conversation state holds no
ChatRef makes no persistence call and leaves the whole store unchanged. -/
theorem sendFeedback_no_chat_noop (s : Store) (id : Str) (m : ShownMessage)
    (e : ChatEntry) (h : lookup s.chats id = some e) (hc : e.chat = none) :
    sendFeedback s id m = some (s, false) := by
  simp [sendFeedback, h, hc]

/-- C10 witness: a concrete view with a state but no durable chat. -/
theorem sendFeedback_no_chat_noop_witness :
    (lookup store8.chats (("v").data)
        = some ⟨none, [{ role := Role.system, content := ("S").data }]⟩
      ∧ (⟨none, [{ role := Role.system, content := ("S").data }]⟩ : ChatEntry).chat = none)
    ∧ sendFeedback store8 (("v").data) { role := Role.user, content := ("x").data }
        = some (store8, false) :=
  ⟨⟨by decide, by decide⟩,
   sendFeedback_no_chat_noop store8 (("v").data)
     { role := Role.user, content := ("x").data }
     ⟨none, [{ role := Role.system, content := ("S").data }]⟩ (by decide) (by decide)⟩

/-- C8: createChatIfNotExist, invoked on the current entry, is
idempotent: with a ChatRef already attached it returns its chatId, makes
no creation request and leaves the store unchanged; with none it
attaches exactly the newly created chat (touching nothing else) and
returns its chatId; the second call then returns the same id with no
request and no further mutation. -/
theorem ensureDurable_idempotent (s : Store) (id : Str) (e : ChatEntry)
    (new1 new2 : Chat) (h : lookup s.chats id = some e) :
    (∀ c, e.chat = some c → ensureDurable s id new1 = (c.chatId, s, false))
    ∧ (e.chat = none →
        (ensureDurable s id new1).1 = new1.chatId
        ∧ (ensureDurable s id new1).2.2 = true
        ∧ lookup (ensureDurable s id new1).2.1.chats id = some { e with chat := some new1 }
        ∧ (∀ k, ¬ k = id → lookup (ensureDurable s id new1).2.1.chats k = lookup s.chats k)
        ∧ (ensureDurable s id new1).2.1.modelIds = s.modelIds
        ∧ (ensureDurable s id new1).2.1.loading = s.loading)
    ∧ ensureDurable (ensureDurable s id new1).2.1 id new2
        = ((ensureDurable s id new1).1, (ensureDurable s id new1).2.1, false) := by
  cases hc : e.chat with
  | some c =>
    have hb : (lookup s.chats id).bind ChatEntry.chat = some c := by
      rw [h]; simp [hc]
    have h1 : ensureDurable s id new1 = (c.chatId, s, false) := by
      simp [ensureDurable, createChatIfNotExist, hb]
    refine ⟨?_, ?_, ?_⟩
    · intro c2 hc2
      cases hc2
      exact h1
    · intro hnone
      cases hnone
    · rw [h1]
      simp [ensureDurable, createChatIfNotExist, hb]
  | none =>
    have hb : (lookup s.chats id).bind ChatEntry.chat = none := by
      rw [h]; simp [hc]
    have h1 : ensureDurable s id new1
        = (new1.chatId,
           { s with chats := mapAssoc s.chats id (fun e0 => { e0 with chat := some new1 }) },
           true) := by
      simp [ensureDurable, createChatIfNotExist, hb]
    have hlook : lookup (mapAssoc s.chats id (fun e0 => { e0 with chat := some new1 })) id
        = some { e with chat := some new1 } := by
      rw [lookup_mapAssoc]
      simp [h]
    refine ⟨?_, ?_, ?_⟩
    · intro c2 hc2
      cases hc2
    · intro _
      rw [h1]
      refine ⟨rfl, rfl, hlook, ?_, rfl, rfl⟩
      intro k hk
      rw [lookup_mapAssoc]
      rw [if_neg (fun hkk => hk hkk.symm)]
    · rw [h1]
      simp only [ensureDurable]
      rw [hlook]
      simp [createChatIfNotExist]

/-- C8 witness: a concrete view with a state and no ChatRef: the first
call attaches the created chat, the second returns the same id without
mutation. -/
theorem ensureDurable_idempotent_witness :
    (lookup store8.chats (("v").data)
        = some ⟨none, [{ role := Role.system, content := ("S").data }]⟩)
    ∧ ((∀ c, (⟨none, [{ role := Role.system, content := ("S").data }]⟩ : ChatEntry).chat = some c →
          ensureDurable store8 (("v").data) ⟨("c1").data, []⟩ = (c.chatId, store8, false))
      ∧ ((⟨none, [{ role := Role.system, content := ("S").data }]⟩ : ChatEntry).chat = none →
          (ensureDurable store8 (("v").data) ⟨("c1").data, []⟩).1 = (Chat.mk (("c1").data) []).chatId
          ∧ (ensureDurable store8 (("v").data) ⟨("c1").data, []⟩).2.2 = true
          ∧ lookup (ensureDurable store8 (("v").data) ⟨("c1").data, []⟩).2.1.chats (("v").data)
              = some { (⟨none, [{ role := Role.system, content := ("S").data }]⟩ : ChatEntry) with
                         chat := some ⟨("c1").data, []⟩ }
          ∧ (∀ k, ¬ k = (("v").data) →
              lookup (ensureDurable store8 (("v").data) ⟨("c1").data, []⟩).2.1.chats k
                = lookup store8.chats k)
          ∧ (ensureDurable store8 (("v").data) ⟨("c1").data, []⟩).2.1.modelIds = store8.modelIds
          ∧ (ensureDurable store8 (("v").data) ⟨("c1").data, []⟩).2.1.loading = store8.loading)
      ∧ ensureDurable (ensureDurable store8 (("v").data) ⟨("c1").data, []⟩).2.1 (("v").data)
            ⟨("c2").data, ("T").data⟩
          = ((ensureDurable store8 (("v").data) ⟨("c1").data, []⟩).1,
             (ensureDurable store8 (("v").data) ⟨("c1").data, []⟩).2.1, false)) :=
  ⟨by decide,
   ensureDurable_idempotent store8 (("v").data)
     ⟨none, [{ role := Role.system, content := ("S").data }]⟩
     ⟨("c1").data, []⟩ ⟨("c2").data, ("T").data⟩ (by decide)⟩

theorem streamTrace_length (id modelId : Str) :
    ∀ (frags : List Str) (s : Store),
      (streamTrace s id modelId frags).length = frags.length := by
  intro frags
  induction frags with
  | nil => intro s; rfl
  | cons f fs ih =>
    intro s
    simp [streamTrace, ih]

theorem streamTrace_getLast (id modelId : Str) :
    ∀ (frags : List Str) (s : Store),
      (s :: streamTrace s id modelId frags).getLast?
        = some (streamFold s id modelId frags) := by
  intro frags
  induction frags with
  | nil => intro s; rfl
  | cons f fs ih =>
    intro s
    simp only [streamTrace]
    rw [List.getLast?_cons_cons]
    exact ih (streamMutation s id modelId f)

theorem streamFold_lastContent (id modelId : Str) :
    ∀ (frags : List Str) (s : Store) (e : ChatEntry) (m : ShownMessage),
      lookup s.chats id = some e → e.messages.getLast? = some m →
      lastContentOf (streamFold s id modelId frags) id
        = some (frags.foldl (fun c f => stripOutput (c ++ f)) m.content) := by
  intro frags
  induction frags with
  | nil =>
    intro s e m he hm
    simp [streamFold, lastContentOf, he, hm]
  | cons f fs ih =>
    intro s e m he hm
    have he1 : lookup (streamMutation s id modelId f).chats id
        = some { e with messages := streamStep modelId e.messages f } := by
      simp only [streamMutation]
      rw [lookup_mapAssoc]
      simp [he]
    have hm1 : (streamStep modelId e.messages f).getLast?
        = some { role := Role.assistant,
                 content := stripOutput (m.content ++ f),
                 llmType := some modelId } := by
      simp [streamStep, List.getLast?_concat, hm]
    exact ih (streamMutation s id modelId f) _ _ he1 hm1

/-- C1 amended: the streaming loop applies exactly one state mutation
per fragment, in arrival order (the trace of set() calls has one state
per fragment and ends in the loop's final store), and the final trailing
content is the left fold that appends each fragment to the accumulated
content and re-strips the markers of the whole result - which in general
differs from stripping the concatenation once. -/
theorem streamLoop_one_mutation_per_fragment (s : Store) (id modelId : Str)
    (frags : List Str) (e : ChatEntry) (m : ShownMessage)
    (he : lookup s.chats id = some e) (hm : e.messages.getLast? = some m) :
    (streamTrace s id modelId frags).length = frags.length
    ∧ (s :: streamTrace s id modelId frags).getLast?
        = some (streamFold s id modelId frags)
    ∧ lastContentOf (streamFold s id modelId frags) id
        = some (frags.foldl (fun c f => stripOutput (c ++ f)) m.content) :=
  ⟨streamTrace_length id modelId frags s,
   streamTrace_getLast id modelId frags s,
   streamFold_lastContent id modelId frags s e m he hm⟩

/-- C1 witness: two ordinary fragments on a concrete store. -/
theorem streamLoop_one_mutation_per_fragment_witness :
    (lookup store9.chats (("v").data)
        = some ⟨none, [{ role := Role.system, content := ("S").data },
                       { role := Role.user, content := ("hi").data },
                       { role := Role.assistant, content := [] }]⟩
      ∧ ([{ role := Role.system, content := ("S").data },
          { role := Role.user, content := ("hi").data },
          { role := Role.assistant, content := ([] : Str) }] : List ShownMessage).getLast?
        = some { role := Role.assistant, content := [] })
    ∧ ((streamTrace store9 (("v").data) (("m").data) [("Hi").data, (" there").data]).length
        = ([("Hi").data, (" there").data] : List Str).length
      ∧ (store9 :: streamTrace store9 (("v").data) (("m").data)
            [("Hi").data, (" there").data]).getLast?
        = some (streamFold store9 (("v").data) (("m").data) [("Hi").data, (" there").data])
      ∧ lastContentOf (streamFold store9 (("v").data) (("m").data)
            [("Hi").data, (" there").data]) (("v").data)
        = some (([("Hi").data, (" there").data] : List Str).foldl
            (fun c f => stripOutput (c ++ f))
            (ShownMessage.content { role := Role.assistant, content := [] }))) :=
  ⟨⟨by decide, by decide⟩,
   streamLoop_one_mutation_per_fragment store9 (("v").data) (("m").data)
     [("Hi").data, (" there").data]
     ⟨none, [{ role := Role.system, content := ("S").data },
             { role := Role.user, content := ("hi").data },
             { role := Role.assistant, content := [] }]⟩
     { role := Role.assistant, content := [] } (by decide) (by decide)⟩

/-- C1 counterexample: when re-stripping the accumulated prefix creates
a fresh marker, the loop's final content differs from the single-pass
marker-stripped concatenation: on the fragments of this instance the
loop ends with x while stripping the concatenation once leaves an
output marker in front. -/
theorem streamLoop_restrip_cex :
    lastContentOf (streamFold store9 (("v").data) (("m").data)
        [("<out<output>put>").data, ("x").data]) (("v").data)
      = some (("x").data)
    ∧ stripOutput ((("<out<output>put>").data) ++ (("x").data)) = ("<output>x").data
    ∧ lastContentOf (streamFold store9 (("v").data) (("m").data)
        [("<out<output>put>").data, ("x").data]) (("v").data)
      ≠ some (stripOutput ((("<out<output>put>").data) ++ (("x").data)))
    ∧ lastContentOf (streamFold store9 (("v").data) (("m").data)
        [("<out<output>put>").data]) (("v").data)
      = some (("<output>").data)
    ∧ stripOutput (stripOutput (("<out<output>put>").data)) = ([] : Str) :=
  ⟨by decide, by decide, by decide, by decide, by decide⟩

theorem lookup_pushMessage (s : Store) (id k : Str) (role : Role) (content : Str) :
    lookup (pushMessage s id role content).chats k
      = if id = k then
          (lookup s.chats k).map (fun e =>
            { e with messages := e.messages ++ [{ role := role, content := content }] })
        else lookup s.chats k := by
  simp only [pushMessage]
  exact lookup_mapAssoc s.chats id k _

/-- C5: at submission time - after the user message and the empty
assistant placeholder are appended, with no input pre-processing - post
sends everything but the trailing placeholder when ignoreHistory is
false, and exactly the leading system message plus the new user turn
when ignoreHistory is true. -/
theorem post_sends_history_or_pair (env : Env) (s : Store) (id : Str) (a : PostArgs)
    (e : ChatEntry) (model : Model)
    (hmid : ¬ getModelId s id = [])
    (hfind : env.findModel (getModelId s id) = some model)
    (he : lookup s.chats id = some e)
    (hnem : e.messages ≠ [])
    (_hsys : (e.messages.head hnem).role = Role.system)
    (hpre : a.preProcessInput = none) :
    ∃ r, post env s id a = some r
      ∧ r.sent = some (omitUnusedMessageProperties
          (if a.ignoreHistory
           then [e.messages.head hnem, { role := Role.user, content := a.content }]
           else e.messages ++ [{ role := Role.user, content := a.content }])) := by
  have he3 : lookup (pushMessage (pushMessage (setLoading s id true) id Role.user a.content)
        id Role.assistant []).chats id
      = some ⟨e.chat, (e.messages ++ [{ role := Role.user, content := a.content }])
          ++ [{ role := Role.assistant, content := [] }]⟩ := by
    rw [lookup_pushMessage, if_pos rfl, lookup_pushMessage, if_pos rfl]
    have hsl : (setLoading s id true).chats = s.chats := rfl
    rw [hsl, he]
    rfl
  have hpair : ∀ (l : List ShownMessage) (u b : ShownMessage) (hl : l ≠ []),
      ((l ++ [u]) ++ [b]).take 1
        ++ (((l ++ [u]) ++ [b]).drop (((l ++ [u]) ++ [b]).length - 2)).take 1
      = [l.head hl, u] := by
    intro l u b hl
    obtain ⟨m0, ms0, rfl⟩ : ∃ m0 ms0, l = m0 :: ms0 := by
      cases hh : l with
      | nil => exact absurd hh hl
      | cons m0 ms0 => exact ⟨m0, ms0, rfl⟩
    have hlen : (((m0 :: ms0) ++ [u]) ++ [b]).length - 2 = (m0 :: ms0).length := by
      simp
    rw [hlen, List.append_assoc, List.drop_left]
    simp
  simp only [post, if_neg hmid, hfind, he, he3, hpre]
  cases hih : a.ignoreHistory with
  | false =>
    exact ⟨_, rfl,
      congrArg (fun l => some (omitUnusedMessageProperties l)) List.dropLast_concat⟩
  | true =>
    exact ⟨_, rfl,
      congrArg (fun l => some (omitUnusedMessageProperties l))
        (hpair e.messages { role := Role.user, content := a.content }
          { role := Role.assistant, content := [] } hnem)⟩

/-- C5 witness: a concrete post on a view with a system-only history. -/
theorem post_sends_history_or_pair_witness :
    (¬ getModelId store8 (("v").data) = []
      ∧ sampleEnv.findModel (getModelId store8 (("v").data)) = some ⟨("m").data⟩
      ∧ lookup store8.chats (("v").data)
          = some ⟨none, [{ role := Role.system, content := ("S").data }]⟩
      ∧ sampleArgs.preProcessInput = none)
    ∧ (∃ r, post sampleEnv store8 (("v").data) sampleArgs = some r
        ∧ r.sent = some (omitUnusedMessageProperties
            (if sampleArgs.ignoreHistory
             then [([{ role := Role.system, content := ("S").data }] : List ShownMessage).head
                     (by decide),
                   { role := Role.user, content := sampleArgs.content }]
             else [{ role := Role.system, content := ("S").data }]
                  ++ [{ role := Role.user, content := sampleArgs.content }]))) :=
  ⟨⟨by decide, by decide, by decide, rfl⟩,
   post_sends_history_or_pair sampleEnv store8 (("v").data) sampleArgs
     ⟨none, [{ role := Role.system, content := ("S").data }]⟩ ⟨("m").data⟩
     (by decide) (by decide) (by decide) (by decide) (by decide) rfl⟩

theorem forall2_getq {α : Type} {R : α → α → Prop} {l1 l2 : List α}
    (h : List.Forall₂ R l1 l2) (i : Nat) (a b : α)
    (ha : l1.get? i = some a) (hb : l2.get? i = some b) : R a b := by
  rcases List.get?_eq_some.1 ha with ⟨h1, rfl⟩
  rcases List.get?_eq_some.1 hb with ⟨h2, rfl⟩
  exact h.get h1 h2

/-- C9: once a message carries an assigned id, each of the named engine
operations - streaming (which by construction only replaces the
trailing, id-less placeholder), reconciliation, canonical-record merge,
feedback update, push and pop - leaves the message at that position with
the very same id. -/
theorem assigned_id_permanent (op : EngineOp) (s : Store) (id : Str) (i : Nat)
    (x : Str) (m m1 : ShownMessage)
    (hpre : opPrecond s id op)
    (hm : (messagesOf s id).get? i = some m)
    (hx : m.messageId = some x)
    (hm1 : (messagesOf (applyOp s id op) id).get? i = some m1) :
    m1.messageId = some x := by
  cases hl : lookup s.chats id with
  | none =>
    rw [messagesOf, hl] at hm
    simp at hm
  | some e =>
    have hms : messagesOf s id = e.messages := by rw [messagesOf, hl]; rfl
    rw [hms] at hm
    cases op with
    | push role content =>
      have hafter : messagesOf (applyOp s id (EngineOp.push role content)) id
          = e.messages ++ [{ role := role, content := content }] := by
        simp [applyOp, pushMessage, messagesOf, lookup_mapAssoc, hl]
      rw [hafter] at hm1
      rcases List.get?_eq_some.1 hm with ⟨hi, _⟩
      rw [List.get?_append hi, hm] at hm1
      cases hm1
      exact hx
    | pop =>
      have hafter : messagesOf (applyOp s id EngineOp.pop) id
          = e.messages.dropLast := by
        simp [applyOp, popMessage, hl, messagesOf, lookup_mapAssoc]
      rw [hafter] at hm1
      rcases List.get?_eq_some.1 hm with ⟨hi, hgm⟩
      rcases List.get?_eq_some.1 hm1 with ⟨hi1, hgm1⟩
      have hm1m : m1 = m := by
        rw [← hgm, ← hgm1]
        simp only [List.get_eq_getElem]
        exact List.getElem_dropLast e.messages i hi1
      rw [hm1m]
      exact hx
    | streamFrag modelId frag =>
      have hafter : messagesOf (applyOp s id (EngineOp.streamFrag modelId frag)) id
          = streamStep modelId e.messages frag := by
        simp [applyOp, streamMutation, messagesOf, lookup_mapAssoc, hl]
      rw [hafter, streamStep] at hm1
      rcases List.get?_eq_some.1 hm with ⟨hi, hgm⟩
      by_cases hcase : i < e.messages.dropLast.length
      · rw [List.get?_append hcase] at hm1
        rcases List.get?_eq_some.1 hm1 with ⟨hi1, hgm1⟩
        have hm1m : m1 = m := by
          rw [← hgm, ← hgm1]
          simp only [List.get_eq_getElem]
          exact List.getElem_dropLast e.messages i hi1
        rw [hm1m]
        exact hx
      · exfalso
        have hilen : i = e.messages.length - 1 := by
          rcases List.get?_eq_some.1 hm1 with ⟨hi1, _⟩
          have hub : i < e.messages.dropLast.length + 1 := by
            simpa using hi1
          have := List.length_dropLast e.messages
          omega
        have hlast : e.messages.getLast? = some m := by
          rw [List.getLast?_eq_get?, ← hilen, hm]
        have hnone := hpre e hl m hlast
        rw [hnone] at hx
        cases hx
    | mergeOp canon =>
      have hafter : messagesOf (applyOp s id (EngineOp.mergeOp canon)) id
          = replaceMessagesList e.messages canon := by
        simp [applyOp, replaceMessages, messagesOf, lookup_mapAssoc, hl]
      rw [hafter] at hm1
      have hr := forall2_getq (replaceMessagesList_pointwise canon e.messages) i m m1 hm hm1
      rw [hr.1]
      exact hx
    | reconcileOp gen cnt recordFn =>
      have hafter : messagesOf (applyOp s id (EngineOp.reconcileOp gen cnt recordFn)) id
          = replaceMessagesList (assignIds gen id cnt e.messages).1
              (recordFn (assignIds gen id cnt e.messages).2.1) := by
        simp [applyOp, reconcile, addMessageIdsToUnrecordedMessages, hl,
          replaceMessages, messagesOf, lookup_mapAssoc]
      rw [hafter] at hm1
      have hfa := assignIds_pointwise gen id e.messages cnt
      have hlen := hfa.length_eq
      rcases List.get?_eq_some.1 hm with ⟨hi, hgm⟩
      have hi2 : i < (assignIds gen id cnt e.messages).1.length := by omega
      have hA : (assignIds gen id cnt e.messages).1.get? i
          = some ((assignIds gen id cnt e.messages).1.get ⟨i, hi2⟩) :=
        List.get?_eq_get hi2
      have hPm := forall2_getq hfa i m _ hm hA
      have hnn : m.messageId ≠ none := by
        rw [hx]
        exact Option.some_ne_none x
      have hAeq := hPm.1 hnn
      have hAq : (assignIds gen id cnt e.messages).1.get? i = some m := by
        rw [hA, hAeq]
      have hr := forall2_getq
        (replaceMessagesList_pointwise (recordFn (assignIds gen id cnt e.messages).2.1)
          (assignIds gen id cnt e.messages).1) i m m1 hAq hm1
      rw [hr.1]
      exact hx
    | feedbackOp msg =>
      cases hc : e.chat with
      | some c =>
        have hafter : messagesOf (applyOp s id (EngineOp.feedbackOp msg)) id
            = replaceMessagesList e.messages [msg] := by
          simp [applyOp, sendFeedback, hl, hc, replaceMessages, messagesOf, lookup_mapAssoc]
        rw [hafter] at hm1
        have hr := forall2_getq (replaceMessagesList_pointwise [msg] e.messages) i m m1 hm hm1
        rw [hr.1]
        exact hx
      | none =>
        have hafter : messagesOf (applyOp s id (EngineOp.feedbackOp msg)) id
            = e.messages := by
          simp [applyOp, sendFeedback, hl, hc, messagesOf]
        rw [hafter, hm] at hm1
        cases hm1
        exact hx

/-- C9 witness: a canonical-record merge over a view holding a recorded
message keeps its id. -/
theorem assigned_id_permanent_witness :
    (opPrecond storeR (("v").data) (EngineOp.mergeOp [])
      ∧ (messagesOf storeR (("v").data)).get? 0
          = some { role := Role.system, content := ("S").data,
                   messageId := some (("id1").data), usecase := some (("/v").data) }
      ∧ ({ role := Role.system, content := ("S").data,
           messageId := some (("id1").data),
           usecase := some (("/v").data) } : ShownMessage).messageId = some (("id1").data)
      ∧ (messagesOf (applyOp storeR (("v").data) (EngineOp.mergeOp [])) (("v").data)).get? 0
          = some { role := Role.system, content := ("S").data,
                   messageId := some (("id1").data), usecase := some (("/v").data) })
    ∧ ({ role := Role.system, content := ("S").data,
         messageId := some (("id1").data),
         usecase := some (("/v").data) } : ShownMessage).messageId = some (("id1").data) :=
  ⟨⟨trivial, by decide, by decide, by decide⟩,
   assigned_id_permanent (EngineOp.mergeOp []) storeR (("v").data) 0 (("id1").data)
     { role := Role.system, content := ("S").data,
       messageId := some (("id1").data), usecase := some (("/v").data) }
     { role := Role.system, content := ("S").data,
       messageId := some (("id1").data), usecase := some (("/v").data) }
     trivial (by decide) (by decide) (by decide)⟩

/-- C3: after reconciliation (assign ids, submit the batch, merge the
canonical response) - given a uuid supply that never yields an empty id,
a non-empty view key, and a server response whose records carry
non-empty usecase tags: every message that lacked an id now carries a
non-empty id and a non-empty usecase tag; every message that already had
an id keeps exactly that id, its value changing only to a canonical
record bearing the same id; and when every message was already
identified, nothing is submitted and the id sequence - hence length and
order - is unchanged. -/
theorem reconcile_spec (gen : Nat → Str) (cnt : Nat)
    (recordFn : List ShownMessage → List ShownMessage) (s : Store) (id : Str)
    (e : ChatEntry)
    (he : lookup s.chats id = some e)
    (hGen : ∀ n, gen n ≠ [])
    (hKey : id ≠ [])
    (hRec : ∀ r ∈ recordFn (addMessageIdsToUnrecordedMessages gen cnt s id).1,
        r.usecase ≠ none ∧ r.usecase ≠ some []) :
    ∃ e1, lookup (reconcile gen cnt recordFn s id).chats id = some e1
    ∧ e1.chat = e.chat
    ∧ e1.messages.length = e.messages.length
    ∧ (∀ i m m1, e.messages.get? i = some m → e1.messages.get? i = some m1 →
        (m.messageId = none →
          m1.messageId ≠ none ∧ m1.messageId ≠ some []
          ∧ m1.usecase ≠ none ∧ m1.usecase ≠ some [])
        ∧ (∀ x, m.messageId = some x →
            m1.messageId = some x
            ∧ (m1 ≠ m →
                m1 ∈ recordFn (addMessageIdsToUnrecordedMessages gen cnt s id).1
                ∧ m1.messageId = some x)))
    ∧ ((∀ m ∈ e.messages, m.messageId ≠ none) →
        (addMessageIdsToUnrecordedMessages gen cnt s id).1 = []
        ∧ (∀ i m m1, e.messages.get? i = some m → e1.messages.get? i = some m1 →
            m1.messageId = m.messageId)) := by
  have hbatch : (addMessageIdsToUnrecordedMessages gen cnt s id).1
      = (assignIds gen id cnt e.messages).2.1 := by
    simp [addMessageIdsToUnrecordedMessages, he]
  have hafter : lookup (reconcile gen cnt recordFn s id).chats id
      = some { e with messages :=
          (replaceMessagesList (assignIds gen id cnt e.messages).1
            (recordFn (addMessageIdsToUnrecordedMessages gen cnt s id).1)) } := by
    simp [reconcile, addMessageIdsToUnrecordedMessages, he, replaceMessages, lookup_mapAssoc]
  have hfa := assignIds_pointwise gen id e.messages cnt
  have hlenA := hfa.length_eq
  have hfr := replaceMessagesList_pointwise
    (recordFn (addMessageIdsToUnrecordedMessages gen cnt s id).1)
    (assignIds gen id cnt e.messages).1
  have hlenR := hfr.length_eq
  refine ⟨_, hafter, rfl, (hlenA.trans hlenR).symm, ?_, ?_⟩
  · intro i m m1 hm hm1
    rcases List.get?_eq_some.1 hm with ⟨hi, _⟩
    have hiA : i < (assignIds gen id cnt e.messages).1.length := by omega
    have hA : (assignIds gen id cnt e.messages).1.get? i
        = some ((assignIds gen id cnt e.messages).1.get ⟨i, hiA⟩) :=
      List.get?_eq_get hiA
    have hPm := forall2_getq hfa i m _ hm hA
    have hR := forall2_getq hfr i _ m1 hA hm1
    constructor
    · intro hmn
      rcases hPm.2 hmn with ⟨k, hAk⟩
      have hmid : m1.messageId = some (gen k) := by
        rw [hR.1, hAk]
      refine ⟨by rw [hmid]; exact Option.some_ne_none _, ?_, ?_, ?_⟩
      · rw [hmid]
        intro hcontra
        exact hGen k (Option.some.inj hcontra)
      · by_cases hmm1 : m1 = (assignIds gen id cnt e.messages).1.get ⟨i, hiA⟩
        · rw [hmm1, hAk]
          exact Option.some_ne_none _
        · exact (hRec m1 (hR.2 hmm1)).1
      · by_cases hmm1 : m1 = (assignIds gen id cnt e.messages).1.get ⟨i, hiA⟩
        · rw [hmm1, hAk]
          intro hcontra
          exact usecaseOf_ne_nil id hKey (Option.some.inj hcontra)
        · exact (hRec m1 (hR.2 hmm1)).2
    · intro x hmx
      have hnn : m.messageId ≠ none := by
        rw [hmx]
        exact Option.some_ne_none x
      have hAeq := hPm.1 hnn
      have hmid : m1.messageId = some x := by
        rw [hR.1, hAeq, hmx]
      refine ⟨hmid, ?_⟩
      intro hne
      have hneA : m1 ≠ (assignIds gen id cnt e.messages).1.get ⟨i, hiA⟩ := by
        rw [hAeq]
        exact hne
      exact ⟨hR.2 hneA, hmid⟩
  · intro hall
    have hAS := assignIds_allSome gen id e.messages cnt hall
    have hAe : (assignIds gen id cnt e.messages).1 = e.messages := by
      rw [hAS]
    constructor
    · rw [hbatch, hAS]
    · intro i m m1 hm hm1
      rw [hAe] at hm1
      have hr := forall2_getq
        (replaceMessagesList_pointwise
          (recordFn (addMessageIdsToUnrecordedMessages gen cnt s id).1) e.messages)
        i m m1 hm hm1
      exact hr.1

theorem lookup_collapse (env : Env) (s : Store) (cid : Str) (k : Str) :
    ∀ l : List (Str × ChatEntry),
      lookup (l.map (fun kv =>
          if kv.2.chat.map Chat.chatId = some cid
          then (kv.1, blankEntry env s kv.1) else kv)) k
      = (lookup l k).map (fun v =>
          if v.chat.map Chat.chatId = some cid then blankEntry env s k else v) := by
  intro l
  induction l with
  | nil => rfl
  | cons p rest ih =>
    obtain ⟨k0, v0⟩ := p
    simp only [List.map_cons]
    by_cases hc : v0.chat.map Chat.chatId = some cid
    · rw [if_pos hc]
      simp only [lookup]
      by_cases hk : k0 = k
      · subst hk
        rw [if_pos rfl, if_pos rfl, Option.map_some', if_pos hc]
      · rw [if_neg hk, if_neg hk, ih]
    · rw [if_neg hc]
      simp only [lookup]
      by_cases hk : k0 = k
      · subst hk
        rw [if_pos rfl, if_pos rfl, Option.map_some', if_neg hc]
      · rw [if_neg hk, if_neg hk, ih]

/-- C2: restore(B, serverMessages, chat) resets every other view bound
to the same chatId to the blank system-only state without a ChatRef,
writes exactly the server messages and the ChatRef into B, leaves B the
unique holder of that chatId, and - when the incoming store had
duplicate chatId bindings only at that chatId - no two distinct views
share any chatId afterwards. -/
theorem restore_collapses_duplicates (env : Env) (s : Store) (A B : Str)
    (msgs : List ShownMessage) (chat : Chat) (eA : ChatEntry) (cA : Chat)
    (hAB : ¬ A = B)
    (hA : lookup s.chats A = some eA)
    (hAchat : eA.chat = some cA)
    (hcid : cA.chatId = chat.chatId) :
    lookup (restore env s B msgs chat).chats A = some (blankEntry env s A)
    ∧ lookup (restore env s B msgs chat).chats B = some ⟨some chat, msgs⟩
    ∧ (∀ k, ¬ k = B → ∀ e c, lookup (restore env s B msgs chat).chats k = some e →
        e.chat = some c → ¬ c.chatId = chat.chatId)
    ∧ ((∀ p ∈ s.chats, ∀ q ∈ s.chats, ¬ p.1 = q.1 →
          ∀ cp cq, p.2.chat = some cp → q.2.chat = some cq →
            cp.chatId = cq.chatId → cp.chatId = chat.chatId) →
        ∀ k1 k2, ¬ k1 = k2 →
          ∀ e1 e2 c1 c2,
            lookup (restore env s B msgs chat).chats k1 = some e1 →
            lookup (restore env s B msgs chat).chats k2 = some e2 →
            e1.chat = some c1 → e2.chat = some c2 →
            ¬ c1.chatId = c2.chatId) := by
  have hre : ∀ k, lookup (restore env s B msgs chat).chats k
      = if B = k then some ⟨some chat, msgs⟩
        else (lookup s.chats k).map (fun v =>
          if v.chat.map Chat.chatId = some chat.chatId then blankEntry env s k else v) := by
    intro k
    simp only [restore, initChat]
    rw [lookup_setAssoc]
    by_cases hk : B = k
    · simp [hk]
    · rw [if_neg hk, if_neg hk]
      exact lookup_collapse env s chat.chatId k s.chats
  have hthird : ∀ k, ¬ k = B → ∀ e c,
      lookup (restore env s B msgs chat).chats k = some e →
      e.chat = some c → ¬ c.chatId = chat.chatId := by
    intro k hk e c hlook hc
    rw [hre k, if_neg (fun h => hk h.symm)] at hlook
    cases hv : lookup s.chats k with
    | none =>
      rw [hv] at hlook
      cases hlook
    | some v =>
      rw [hv] at hlook
      by_cases hP : v.chat.map Chat.chatId = some chat.chatId
      · rw [Option.map_some', if_pos hP] at hlook
        cases hlook
        simp [blankEntry] at hc
      · rw [Option.map_some', if_neg hP] at hlook
        cases hlook
        intro hcc
        apply hP
        rw [hc, Option.map_some', hcc]
  refine ⟨?_, ?_, hthird, ?_⟩
  · rw [hre A, if_neg (fun h => hAB h.symm), hA, Option.map_some', if_pos ?_]
    rw [hAchat, Option.map_some', hcid]
  · rw [hre B, if_pos rfl]
  · intro hdup k1 k2 hk e1 e2 c1 c2 h1 h2 hc1 hc2 hcc
    by_cases hb1 : k1 = B
    · by_cases hb2 : k2 = B
      · exact hk (hb1.trans hb2.symm)
      · subst hb1
        rw [hre k1, if_pos rfl] at h1
        cases h1
        rw [show (⟨some chat, msgs⟩ : ChatEntry).chat = some chat from rfl] at hc1
        cases hc1
        exact hthird k2 hb2 e2 c2 h2 hc2 hcc.symm
    · by_cases hb2 : k2 = B
      · subst hb2
        rw [hre k2, if_pos rfl] at h2
        cases h2
        rw [show (⟨some chat, msgs⟩ : ChatEntry).chat = some chat from rfl] at hc2
        cases hc2
        exact hthird k1 hb1 e1 c1 h1 hc1 hcc
      · rw [hre k1, if_neg (fun h => hb1 h.symm)] at h1
        rw [hre k2, if_neg (fun h => hb2 h.symm)] at h2
        cases hv1 : lookup s.chats k1 with
        | none => rw [hv1] at h1; cases h1
        | some v1 =>
          cases hv2 : lookup s.chats k2 with
          | none => rw [hv2] at h2; cases h2
          | some v2 =>
            rw [hv1, Option.map_some'] at h1
            rw [hv2, Option.map_some'] at h2
            by_cases hP1 : v1.chat.map Chat.chatId = some chat.chatId
            · rw [if_pos hP1] at h1
              have hev1 : e1 = blankEntry env s k1 := (Option.some.inj h1).symm
              subst hev1
              simp [blankEntry] at hc1
            · by_cases hP2 : v2.chat.map Chat.chatId = some chat.chatId
              · rw [if_pos hP2] at h2
                have hev2 : e2 = blankEntry env s k2 := (Option.some.inj h2).symm
                subst hev2
                simp [blankEntry] at hc2
              · rw [if_neg hP1] at h1
                rw [if_neg hP2] at h2
                have hev1 : e1 = v1 := (Option.some.inj h1).symm
                have hev2 : e2 = v2 := (Option.some.inj h2).symm
                subst hev1
                subst hev2
                have hmem1 := lookup_mem s.chats k1 e1 hv1
                have hmem2 := lookup_mem s.chats k2 e2 hv2
                have := hdup (k1, e1) hmem1 (k2, e2) hmem2 hk c1 c2 hc1 hc2 hcc
                apply hP1
                rw [hc1, Option.map_some', this]

/-- C2 witness: view a of store2 holds chat c1; restoring c1 into view b
blanks a, fills b, and restores chatId uniqueness. -/
theorem restore_collapses_duplicates_witness :
    (¬ (("a").data) = (("b").data)
      ∧ lookup store2.chats (("a").data)
          = some ⟨some ⟨("c1").data, ("T").data⟩,
                  [{ role := Role.system, content := ("S").data }]⟩
      ∧ (⟨some ⟨("c1").data, ("T").data⟩,
          [{ role := Role.system, content := ("S").data }]⟩ : ChatEntry).chat
          = some ⟨("c1").data, ("T").data⟩
      ∧ (Chat.mk (("c1").data) (("T").data)).chatId = (Chat.mk (("c1").data) []).chatId)
    ∧ (lookup (restore sampleEnv store2 (("b").data)
          [{ role := Role.system, content := ("Z").data }] ⟨("c1").data, []⟩).chats (("a").data)
        = some (blankEntry sampleEnv store2 (("a").data))
      ∧ lookup (restore sampleEnv store2 (("b").data)
          [{ role := Role.system, content := ("Z").data }] ⟨("c1").data, []⟩).chats (("b").data)
        = some ⟨some ⟨("c1").data, []⟩, [{ role := Role.system, content := ("Z").data }]⟩
      ∧ (∀ k, ¬ k = (("b").data) → ∀ e c,
          lookup (restore sampleEnv store2 (("b").data)
            [{ role := Role.system, content := ("Z").data }] ⟨("c1").data, []⟩).chats k = some e →
          e.chat = some c → ¬ c.chatId = (Chat.mk (("c1").data) []).chatId)
      ∧ ((∀ p ∈ store2.chats, ∀ q ∈ store2.chats, ¬ p.1 = q.1 →
            ∀ cp cq, p.2.chat = some cp → q.2.chat = some cq →
              cp.chatId = cq.chatId → cp.chatId = (Chat.mk (("c1").data) []).chatId) →
          ∀ k1 k2, ¬ k1 = k2 →
            ∀ e1 e2 c1 c2,
              lookup (restore sampleEnv store2 (("b").data)
                [{ role := Role.system, content := ("Z").data }] ⟨("c1").data, []⟩).chats k1
                  = some e1 →
              lookup (restore sampleEnv store2 (("b").data)
                [{ role := Role.system, content := ("Z").data }] ⟨("c1").data, []⟩).chats k2
                  = some e2 →
              e1.chat = some c1 → e2.chat = some c2 →
              ¬ c1.chatId = c2.chatId)) :=
  ⟨⟨by decide, by decide, by decide, by decide⟩,
   restore_collapses_duplicates sampleEnv store2 (("a").data) (("b").data)
     [{ role := Role.system, content := ("Z").data }] ⟨("c1").data, []⟩
     ⟨some ⟨("c1").data, ("T").data⟩, [{ role := Role.system, content := ("S").data }]⟩
     ⟨("c1").data, ("T").data⟩
     (by decide) (by decide) (by decide) (by decide)⟩

/-- C3 witness: one unidentified message on a concrete store, with an
echoing persistence response. -/
theorem reconcile_spec_witness :
    (lookup store6.chats (("v").data)
        = some ⟨none, [{ role := Role.user, content := ("hi").data }]⟩
      ∧ (∀ _ : Nat, (("u").data : Str) ≠ [])
      ∧ ¬ (("v").data) = ([] : Str)
      ∧ (∀ r ∈ (addMessageIdsToUnrecordedMessages (fun _ : Nat => ("u").data) 0 store6
            (("v").data)).1,
          r.usecase ≠ none ∧ r.usecase ≠ some []))
    ∧ (∃ e1,
        lookup (reconcile (fun _ : Nat => ("u").data) 0 (fun l : List ShownMessage => l)
            store6 (("v").data)).chats (("v").data) = some e1
        ∧ e1.chat = (⟨none, [{ role := Role.user, content := ("hi").data }]⟩ : ChatEntry).chat
        ∧ e1.messages.length
            = (⟨none, [{ role := Role.user, content := ("hi").data }]⟩ : ChatEntry).messages.length
        ∧ (∀ i m m1,
            (⟨none, [{ role := Role.user, content := ("hi").data }]⟩ : ChatEntry).messages.get? i
                = some m →
            e1.messages.get? i = some m1 →
            (m.messageId = none →
              m1.messageId ≠ none ∧ m1.messageId ≠ some []
              ∧ m1.usecase ≠ none ∧ m1.usecase ≠ some [])
            ∧ (∀ x, m.messageId = some x →
                m1.messageId = some x
                ∧ (m1 ≠ m →
                    m1 ∈ (addMessageIdsToUnrecordedMessages (fun _ : Nat => ("u").data) 0 store6
                      (("v").data)).1
                    ∧ m1.messageId = some x)))
        ∧ ((∀ m ∈ (⟨none, [{ role := Role.user, content := ("hi").data }]⟩ : ChatEntry).messages,
              m.messageId ≠ none) →
            (addMessageIdsToUnrecordedMessages (fun _ : Nat => ("u").data) 0 store6
                (("v").data)).1 = []
            ∧ (∀ i m m1,
                (⟨none, [{ role := Role.user,
                           content := ("hi").data }]⟩ : ChatEntry).messages.get? i = some m →
                e1.messages.get? i = some m1 →
                m1.messageId = m.messageId))) :=
  ⟨⟨by decide, fun _ => by decide, by decide, by decide⟩,
   reconcile_spec (fun _ : Nat => ("u").data) 0 (fun l : List ShownMessage => l)
     store6 (("v").data) ⟨none, [{ role := Role.user, content := ("hi").data }]⟩
     (by decide)
     ((fun _ => by decide) : ∀ _ : Nat, (("u").data : Str) ≠ [])
     (by decide) (by decide)⟩

end UseChat
